import Mathlib

/-!
Verification of the cache subsystem in `src/cache.ts` (CDN cache
invalidation and warming for a multi-tenant site engine).

Strings are modelled as `List Char` (`JStr`), mirroring the JavaScript
string operations the source uses (`endsWith`, `lastIndexOf`,
`substr(0, n)`, `toLowerCase`, template literals).  Asynchronous
operations are modelled by the data they emit: the list of CDN calls a
fan-out issues, a timed event trace for the delayed warm operation, and
an explicit promise-state semantics (`PState`) for completion behaviour.
The registry key derivation uses a full executable SHA-256, since the
source keys the host registry by `SHA256(host).toString().toLowerCase()`
(crypto-js, standard SHA-256 with lowercase hex output).
-/

abbrev JStr := List Char

/-- The characters of a Lean string literal, used to write JavaScript
string constants from the source. -/
def jstr (s : String) : JStr := s.data

/-! ## JavaScript string primitives used by the source -/

/-- The needle `sub` occurs in `s` at index `i`
(the substring of `s` starting at `i` begins with `sub`). -/
def occursAt (s sub : JStr) (i : Nat) : Bool :=
  decide ((s.drop i).take sub.length = sub)

/-- JavaScript `String.prototype.endsWith(sub)`. -/
def jsEndsWith (s sub : JStr) : Bool :=
  decide (sub.length ≤ s.length) && decide (s.drop (s.length - sub.length) = sub)

/-- Search downward from index `n` for the greatest occurrence of `sub`. -/
def lastIndexOfAux (s sub : JStr) : Nat → Option Nat
  | 0 => if occursAt s sub 0 then some 0 else none
  | n + 1 => if occursAt s sub (n + 1) then some (n + 1) else lastIndexOfAux s sub n

/-- JavaScript `String.prototype.lastIndexOf(sub)`: the greatest index at
which `sub` occurs, or `-1` when it does not occur. -/
def jsLastIndexOf (s sub : JStr) : Int :=
  match lastIndexOfAux s sub s.length with
  | some i => Int.ofNat i
  | none => -1

/-- JavaScript `s.substr(0, n)` (for possibly negative `n`): the first `n`
characters of `s`, the empty string when `n ≤ 0`. -/
def jsSubstrTo (s : JStr) (n : Int) : JStr := s.take n.toNat

/-- JavaScript `String.prototype.toLowerCase` restricted to ASCII, which is
all the source ever lowercases (hex digests and hostnames). -/
def jsToLowerCase (s : JStr) : JStr :=
  s.map fun c => if 'A' ≤ c ∧ c ≤ 'Z' then Char.ofNat (c.toNat + 32) else c

/-- JavaScript `String.prototype.includes(sub)`. -/
def jsIncludes (s sub : JStr) : Bool :=
  (List.range (s.length + 1)).any fun i => occursAt s sub i

/-! ## SHA-256 (as computed by crypto-js `SHA256(message).toString()`)

The source keys its host registry by the SHA-256 digest of the hostname.
crypto-js implements standard FIPS 180-4 SHA-256 over the UTF-8 bytes of
the message and renders the digest as lowercase hexadecimal. -/

/-- Truncation to a 32-bit word. -/
def w32 (n : Nat) : Nat := n % 4294967296

/-- Right rotation of a 32-bit word. -/
def shaRotr (x n : Nat) : Nat := w32 ((x >>> n) ||| (x <<< (32 - n)))

/-- SHA-256 choice function `Ch(x, y, z)`. -/
def shaCh (x y z : Nat) : Nat := (x &&& y) ^^^ ((x ^^^ 0xffffffff) &&& z)

/-- SHA-256 majority function `Maj(x, y, z)`. -/
def shaMaj (x y z : Nat) : Nat := (x &&& y) ^^^ (x &&& z) ^^^ (y &&& z)

/-- SHA-256 `Σ₀`. -/
def shaBigSigma0 (x : Nat) : Nat := (shaRotr x 2) ^^^ (shaRotr x 13) ^^^ (shaRotr x 22)

/-- SHA-256 `Σ₁`. -/
def shaBigSigma1 (x : Nat) : Nat := (shaRotr x 6) ^^^ (shaRotr x 11) ^^^ (shaRotr x 25)

/-- SHA-256 `σ₀`. -/
def shaSmallSigma0 (x : Nat) : Nat := (shaRotr x 7) ^^^ (shaRotr x 18) ^^^ (x >>> 3)

/-- SHA-256 `σ₁`. -/
def shaSmallSigma1 (x : Nat) : Nat := (shaRotr x 17) ^^^ (shaRotr x 19) ^^^ (x >>> 10)

/-- The initial SHA-256 hash state (FIPS 180-4 §5.3.3, written in
decimal). -/
def shaH0 : List Nat :=
  [1779033703, 3144134277, 1013904242, 2773480762,
   1359893119, 2600822924, 528734635, 1541459225]

/-- The 64 SHA-256 round constants (FIPS 180-4 §4.2.2, written in
decimal). -/
def shaK : List Nat :=
  [1116352408, 1899447441, 3049323471, 3921009573, 961987163, 1508970993,
   2453635748, 2870763221, 3624381080, 310598401, 607225278, 1426881987,
   1925078388, 2162078206, 2614888103, 3248222580, 3835390401, 4022224774,
   264347078, 604807628, 770255983, 1249150122, 1555081692, 1996064986,
   2554220882, 2821834349, 2952996808, 3210313671, 3336571891, 3584528711,
   113926993, 338241895, 666307205, 773529912, 1294757372, 1396182291,
   1695183700, 1986661051, 2177026350, 2456956037, 2730485921, 2820302411,
   3259730800, 3345764771, 3516065817, 3600352804, 4094571909, 275423344,
   430227734, 506948616, 659060556, 883997877, 958139571, 1322822218,
   1537002063, 1747873779, 1955562222, 2024104815, 2227730452, 2361852424,
   2428436474, 2756734187, 3204031479, 3329325298]

/-- SHA-256 message padding: `0x80`, zeros to 56 mod 64, then the bit
length as a 64-bit big-endian integer. -/
def shaPad (msg : List Nat) : List Nat :=
  let len := msg.length
  let bitLen := 8 * len
  let zeros := (119 - len % 64) % 64
  msg ++ [0x80] ++ List.replicate zeros 0 ++
    [(bitLen >>> 56) % 256, (bitLen >>> 48) % 256, (bitLen >>> 40) % 256, (bitLen >>> 32) % 256,
     (bitLen >>> 24) % 256, (bitLen >>> 16) % 256, (bitLen >>> 8) % 256, bitLen % 256]

/-- Split a list into consecutive chunks of `k` elements (fuelled). -/
def listChunksAux (k : Nat) : Nat → List Nat → List (List Nat)
  | 0, _ => []
  | _, [] => []
  | fuel + 1, l => l.take k :: listChunksAux k fuel (l.drop k)

/-- Split a list into consecutive chunks of `k` elements. -/
def listChunks (k : Nat) (l : List Nat) : List (List Nat) := listChunksAux k l.length l

/-- Big-endian bytes to a machine word. -/
def bytesToWord (bs : List Nat) : Nat := bs.foldl (fun acc b => acc * 256 + b) 0

/-- The sixteen 32-bit big-endian words of a 64-byte block. -/
def blockWords (block : List Nat) : List Nat := (listChunks 4 block).map bytesToWord

/-- Extend the message schedule by `fuel` further words (the accumulator is
kept reversed, so `acc.getD 1`, `acc.getD 6`, `acc.getD 14`, `acc.getD 15`
are `w[i-2]`, `w[i-7]`, `w[i-15]`, `w[i-16]`). -/
def shaExtendAux : Nat → List Nat → List Nat
  | 0, acc => acc
  | n + 1, acc =>
    shaExtendAux n
      ((w32 ((acc.getD 15 0) + shaSmallSigma0 (acc.getD 14 0) + (acc.getD 6 0) +
        shaSmallSigma1 (acc.getD 1 0))) :: acc)

/-- The 64-word SHA-256 message schedule of one block. -/
def shaSchedule (ws : List Nat) : List Nat := (shaExtendAux 48 ws.reverse).reverse

/-- The eight SHA-256 working variables. -/
structure ShaState where
  a : Nat
  b : Nat
  c : Nat
  d : Nat
  e : Nat
  f : Nat
  g : Nat
  h : Nat

/-- One SHA-256 compression round (with its round constant and schedule word). -/
def shaRound (st : ShaState) (kw : Nat × Nat) : ShaState :=
  let t1 := w32 (st.h + shaBigSigma1 st.e + shaCh st.e st.f st.g + kw.1 + kw.2)
  let t2 := w32 (shaBigSigma0 st.a + shaMaj st.a st.b st.c)
  ⟨w32 (t1 + t2), st.a, st.b, st.c, w32 (st.d + t1), st.e, st.f, st.g⟩

/-- Compress one 64-byte block into the running hash value. -/
def shaCompress (hs : List Nat) (block : List Nat) : List Nat :=
  let ws := shaSchedule (blockWords block)
  let init : ShaState :=
    ⟨hs.getD 0 0, hs.getD 1 0, hs.getD 2 0, hs.getD 3 0,
     hs.getD 4 0, hs.getD 5 0, hs.getD 6 0, hs.getD 7 0⟩
  let st := (shaK.zip ws).foldl shaRound init
  [w32 (hs.getD 0 0 + st.a), w32 (hs.getD 1 0 + st.b), w32 (hs.getD 2 0 + st.c),
   w32 (hs.getD 3 0 + st.d), w32 (hs.getD 4 0 + st.e), w32 (hs.getD 5 0 + st.f),
   w32 (hs.getD 6 0 + st.g), w32 (hs.getD 7 0 + st.h)]

/-- SHA-256 digest of a byte sequence, as eight 32-bit words. -/
def sha256Words (msg : List Nat) : List Nat :=
  (listChunks 64 (shaPad msg)).foldl shaCompress shaH0

/-- Lowercase hexadecimal digit. -/
def shaHexDigit (n : Nat) : Char := if n < 10 then Char.ofNat (48 + n) else Char.ofNat (87 + n)

/-- Lowercase hexadecimal rendering of one 32-bit word. -/
def shaWordToHex (w : Nat) : List Char :=
  [shaHexDigit ((w >>> 28) % 16), shaHexDigit ((w >>> 24) % 16), shaHexDigit ((w >>> 20) % 16),
   shaHexDigit ((w >>> 16) % 16), shaHexDigit ((w >>> 12) % 16), shaHexDigit ((w >>> 8) % 16),
   shaHexDigit ((w >>> 4) % 16), shaHexDigit (w % 16)]

/-- UTF-8 bytes of an ASCII string (hostnames, the only strings the source
hashes, are ASCII, where UTF-8 is the identity on code points). -/
def asciiBytes (s : JStr) : List Nat := s.map Char.toNat

/-- crypto-js `SHA256(s).toString()`: the lowercase-hex SHA-256 digest of
the UTF-8 bytes of `s`. -/
def sha256Hex (s : JStr) : JStr := (sha256Words (asciiBytes s)).flatMap shaWordToHex

set_option maxRecDepth 100000 in
/-- FIPS 180-4 test vector: the file's SHA-256 is the real one. -/
theorem sha256Hex_abc :
    sha256Hex (jstr "abc") =
      jstr "ba7816bf8f01cfea414140de5dae2223b00361a396177a9cb410ff61f20015ad" := by
  decide

/-! ## Promise and network model

A CDN request either receives an HTTP response (of any status code) or the
underlying connection fails.  A JavaScript promise observed from the
outside is resolved, rejected, or still pending. -/

/-- Outcome of one outbound HTTPS request. -/
inductive NetOutcome where
  | response (statusCode : Nat) (statusMessage : JStr)
  | connError
deriving DecidableEq

/-- Whether the request produced a response (of any status code). -/
def NetOutcome.isResponse : NetOutcome → Bool
  | .response _ _ => true
  | .connError => false

/-- Observable state of a JavaScript promise. -/
inductive PState where
  | resolved
  | rejected
  | pending
deriving DecidableEq

/-- `Promise.all`: rejected as soon as a component rejects, resolved when
every component is resolved, otherwise pending. -/
def promiseAllState (l : List PState) : PState :=
  if l.any fun s => decide (s = PState.rejected) then PState.rejected
  else if l.all fun s => decide (s = PState.resolved) then PState.resolved
  else PState.pending

/-- Options object passed to `https.get` by the source. -/
structure ReqOptions where
  hostname : JStr
  port : Nat
  path : JStr
  method : JStr
deriving DecidableEq

/-- One CDN request issued by a fan-out: target host, request path, HTTP
method. -/
structure CdnCall where
  host : JStr
  path : JStr
  method : JStr
deriving DecidableEq

/-! ## Embedding of `src/cache.ts` -/

/-- `CacheConfig` of the source (the merged configuration; both values in
seconds). -/
structure CacheConfig where
  max_age : Nat
  s_max_age : Nat

/-- `CONFIG_DEFAULT` of the source. -/
def CONFIG_DEFAULT : CacheConfig := { s_max_age := 60 * 60 * 24 * 365, max_age := 60 * 10 }

/-- The runtime configuration section `functions.config().cache`, when
present: each known key is optionally overridden (unknown keys are ignored
by the shallow merge because the template only reads these two). -/
structure RuntimeCacheConfig where
  max_age : Option Nat
  s_max_age : Option Nat

/-- `getCacheHeader` of the source: shallow merge of the runtime `cache`
config section (or the empty object when the section is absent) over
`CONFIG_DEFAULT`, rendered through the template literal
`public, max-age=[max_age], s-maxage=[s_max_age]`. -/
def getCacheHeader (cache : Option RuntimeCacheConfig) : JStr :=
  let ov := cache.getD ⟨none, none⟩
  let config : CacheConfig :=
    { max_age := ov.max_age.getD CONFIG_DEFAULT.max_age,
      s_max_age := ov.s_max_age.getD CONFIG_DEFAULT.s_max_age }
  jstr "public, max-age=" ++ (Nat.repr config.max_age).data ++
    jstr ", s-maxage=" ++ (Nat.repr config.s_max_age).data

/-- `CacheFirebasePath.hostRegistry` of the source. -/
def hostRegistry : JStr := jstr "cacheDomains"

/-- `lastSeen` is `admin.database.ServerValue.TIMESTAMP`, a server-assigned
placeholder, not a caller-side clock value. -/
inductive TimeValue where
  | serverTimestamp
deriving DecidableEq

/-- `CachedDomain` of the source. -/
structure CachedDomain where
  domain : JStr
  lastSeen : TimeValue
deriving DecidableEq

/-- One registry write issued by `registerRequestHost`:
`admin.database().ref('cacheDomains').child(hostHash).set(data)`. -/
structure RegistryUpsert where
  refPath : JStr
  data : CachedDomain
deriving DecidableEq

/-- The loop body of `registerRequestHost` for one host:
`hostHash = SHA256(currentHost).toString().toLowerCase()` and the upsert of
`CachedDomain (domain, ServerValue.TIMESTAMP)` at `cacheDomains/hostHash`. -/
def registerUpsertFor (currentHost : JStr) : RegistryUpsert :=
  { refPath := hostRegistry ++ jstr "/" ++ jsToLowerCase (sha256Hex currentHost),
    data := { domain := currentHost, lastSeen := TimeValue.serverTimestamp } }

/-- `registerRequestHost` of the source, as the list of registry upserts it
issues (in push order).  `defaultDomain` stands for `site.getDefaultDomain()`.
Modelled from the spec: `site.getDefaultDomain` is not under `src/`; per the
spec it returns the deployment's canonical default domain, so it is passed
here as an input. -/
def registerRequestHost (host defaultDomain : JStr) : List RegistryUpsert :=
  let hosts :=
    [host] ++ (if jsEndsWith host (jstr ".cloudfunctions.net") then [defaultDomain] else [])
  hosts.map registerUpsertFor

/-- Completion state of the `Promise.all` returned by `registerRequestHost`,
given the acknowledgement state of each individual upsert. -/
def registerRequestHostState (host defaultDomain : JStr) (ack : RegistryUpsert → PState) :
    PState :=
  promiseAllState ((registerRequestHost host defaultDomain).map ack)

/-- The `filenameVariants` computation inside `purgeCache`: the path itself
and, when it ends in `/index.html`, `substr(0, lastIndexOf('/index.html'))`
and `substr(0, lastIndexOf('index.html'))`. -/
def purgeFilenameVariants (filePath : JStr) : List JStr :=
  if jsEndsWith filePath (jstr "/index.html") then
    [filePath,
     jsSubstrTo filePath (jsLastIndexOf filePath (jstr "/index.html")),
     jsSubstrTo filePath (jsLastIndexOf filePath (jstr "index.html"))]
  else [filePath]

/-- The identical `filenameVariants` computation duplicated inside
`heatCache`. -/
def heatFilenameVariants (filePath : JStr) : List JStr :=
  if jsEndsWith filePath (jstr "/index.html") then
    [filePath,
     jsSubstrTo filePath (jsLastIndexOf filePath (jstr "/index.html")),
     jsSubstrTo filePath (jsLastIndexOf filePath (jstr "index.html"))]
  else [filePath]

/-- `purgeFromCdn` of the source: the options object it passes to
`https.get` (method `PURGE`, port 443). -/
def purgeFromCdnOpts (host path : JStr) : ReqOptions :=
  { hostname := host, port := 443, path := path, method := jstr "PURGE" }

/-- The settlement behaviour of the promise returned by `purgeFromCdn`: its
executor calls `resolve(null)` only inside the response callback of
`https.get`, and installs no error handler and no `reject`, so the promise
is resolved once a response (of any status code) arrives and stays pending
forever when the connection fails with an error. -/
def purgeFromCdnPromise (outcome : NetOutcome) : PState :=
  match outcome with
  | .response _ _ => PState.resolved
  | .connError => PState.pending

/-- `heatUpCdn` of the source: the options object it passes to `https.get`
(method `GET`, port 443). -/
def heatUpCdnOpts (host path : JStr) : ReqOptions :=
  { hostname := host, port := 443, path := path, method := jstr "GET" }

/-- The settlement behaviour of the promise returned by `heatUpCdn`,
identical to `purgeFromCdn`: resolved on any response, pending forever on a
connection error (no error handler, no `reject`). -/
def heatUpCdnPromise (outcome : NetOutcome) : PState :=
  match outcome with
  | .response _ _ => PState.resolved
  | .connError => PState.pending

/-- The CDN calls issued by `purgeCache(filePath)` against a registry
snapshot (the `domain` fields of the `cacheDomains` children, in store
order): one `purgeFromCdn(domain, variant)` per registry entry and filename
variant, in loop order. -/
def purgeCacheCalls (filePath : JStr) (registry : List JStr) : List CdnCall :=
  registry.flatMap fun domain =>
    (purgeFilenameVariants filePath).map fun v =>
      { host := domain, path := v, method := jstr "PURGE" }

/-- Completion state of the `Promise.all` returned by `purgeCache`, given
the network outcome of each issued call. -/
def purgeCacheState (filePath : JStr) (registry : List JStr) (outcome : CdnCall → NetOutcome) :
    PState :=
  promiseAllState ((purgeCacheCalls filePath registry).map fun c => purgeFromCdnPromise (outcome c))

/-- The CDN calls issued by `heatCache(filePath)` after its delay: one
`heatUpCdn(domain, variant)` per registry entry and filename variant. -/
def heatCacheCalls (filePath : JStr) (registry : List JStr) : List CdnCall :=
  registry.flatMap fun domain =>
    (heatFilenameVariants filePath).map fun v =>
      { host := domain, path := v, method := jstr "GET" }

/-- One event in the timed behaviour of `heatCache`. -/
inductive HeatEvent where
  | sleep (ms : Nat)
  | call (c : CdnCall)
deriving DecidableEq

/-- Whether an event is the timer wait. -/
def HeatEvent.isSleep : HeatEvent → Bool
  | .sleep _ => true
  | .call _ => false

/-- Whether an event is a network call with HTTP method `GET`. -/
def HeatEvent.isGetCall : HeatEvent → Bool
  | .sleep _ => false
  | .call c => c.method == jstr "GET"

/-- `heatCache(filePath, delay = 10000)` as an ordered event trace: it first
awaits `setTimeout(delay)` and only then computes the variants, reads the
registry snapshot and issues the GET fan-out. -/
def heatCacheTrace (filePath : JStr) (registry : List JStr) (delay : Nat := 10000) :
    List HeatEvent :=
  HeatEvent.sleep delay :: (heatCacheCalls filePath registry).map HeatEvent.call

/-- The events a trace performs strictly before its first timer wait. -/
def eventsBeforeSleep (t : List HeatEvent) : List HeatEvent :=
  t.takeWhile fun e => !e.isSleep

/-- The events a trace performs after its first timer wait has elapsed. -/
def eventsAfterSleep (t : List HeatEvent) : List HeatEvent :=
  (t.dropWhile fun e => !e.isSleep).tail

/-- A Firestore document snapshot as the content-write reaction reads it:
`exists` and the optional `path` array of its data.  `path = none` models a
document whose data carries no `path` field (JavaScript `undefined`, which
is falsy; a present array — even an empty one — is truthy). -/
structure DocSnap where
  docExists : Bool
  path : Option (List JStr)

/-- A call the content-write reaction delegates to: `purgeCache(p)` or
`heatCache(p)` (the latter with its default 10000 ms delay).  The argument
is `none` when the source would pass JavaScript `undefined`
(`path[0]` of an empty array). -/
inductive DispatchOp where
  | purgeOp (path : Option JStr)
  | heatOp (path : Option JStr) (delay : Nat)
deriving DecidableEq

/-- `tanam_onDocWriteUpdateCache` of the source, as the ordered list of
purge/heat calls it delegates to.  When the before-document exists and its
data has a truthy `path`, it purges `/sitemap.xml` and `path[0]` (awaiting
both concurrently); independently, when the after-document exists and its
data has a truthy `path`, it heats `path[0]` with the default delay. -/
def tanam_onDocWriteUpdateCache (before after : DocSnap) : List DispatchOp :=
  (if before.docExists && before.path.isSome then
    [DispatchOp.purgeOp (some (jstr "/sitemap.xml")),
     DispatchOp.purgeOp ((before.path.getD []).head?)]
  else []) ++
  (if after.docExists && after.path.isSome then
    [DispatchOp.heatOp ((after.path.getD []).head?) 10000]
  else [])

/-- `tanam_onThemeChangeUpdateCache` of the source, flattened to the CDN
calls it causes.  `before` is the previous theme value (`none` on first-time
assignment, when the reaction does nothing).  Modelled from the spec:
`site.getDomains`, `content.getThemeFiles`, `content.getAllDocuments` and
`content.getPublicPathToStorageFile` are not under `src/`; per the spec they
are, respectively, the registered domains, the previous theme's asset file
names, the existing content records (given here by their `path` arrays,
each assumed non-empty since the source reads `path[0]` unconditionally),
and an external public-path mapping, so all are passed as inputs.  For each
domain of `domains` the source pushes one `purgeCache` per theme file and
one per document; every such `purgeCache` itself fans out over the whole
`registry` snapshot. -/
def tanam_onThemeChangeUpdateCache (before : Option JStr) (publicPath : JStr → JStr)
    (domains themeFileNames : List JStr) (documentPaths : List (List JStr))
    (registry : List JStr) : List CdnCall :=
  match before with
  | none => []
  | some _ =>
    domains.flatMap fun _ =>
      (themeFileNames.flatMap fun n => purgeCacheCalls (publicPath n) registry) ++
      (documentPaths.flatMap fun ps => purgeCacheCalls (ps.headD []) registry)

/-! ## General lemmas about the string primitives -/

theorem jsEndsWith_true_iff (s sub : JStr) :
    jsEndsWith s sub = true ↔ ∃ t, s = t ++ sub := by
  unfold jsEndsWith
  rw [Bool.and_eq_true, decide_eq_true_eq, decide_eq_true_eq]
  constructor
  · rintro ⟨hlen, hdrop⟩
    refine ⟨s.take (s.length - sub.length), ?_⟩
    conv_lhs => rw [← List.take_append_drop (s.length - sub.length) s]
    rw [hdrop]
  · rintro ⟨t, rfl⟩
    have hl : (t ++ sub).length - sub.length = t.length := by
      simp [List.length_append]
    refine ⟨by simp [List.length_append], ?_⟩
    rw [hl, List.drop_left]

theorem occursAt_append (t sub : JStr) : occursAt (t ++ sub) sub t.length = true := by
  unfold occursAt
  rw [decide_eq_true_eq, List.drop_left, List.take_length]

theorem occursAt_append_false (t sub : JStr) (hsub : sub ≠ []) (k : Nat)
    (hk : t.length < k) : occursAt (t ++ sub) sub k = false := by
  unfold occursAt
  rw [decide_eq_false_iff_not]
  intro heq
  have hlen := congrArg List.length heq
  have hsubpos : 0 < sub.length := List.length_pos.mpr hsub
  rw [List.length_take, List.length_drop, List.length_append] at hlen
  omega

theorem lastIndexOfAux_eq_some (s sub : JStr) (m : Nat) :
    ∀ n, m ≤ n → occursAt s sub m = true →
      (∀ k, m < k → k ≤ n → occursAt s sub k = false) →
      lastIndexOfAux s sub n = some m := by
  intro n
  induction n with
  | zero =>
    intro hmn hm _
    have hm0 : m = 0 := Nat.le_zero.mp hmn
    subst hm0
    simp [lastIndexOfAux, hm]
  | succ n ih =>
    intro hmn hm hk
    by_cases hme : m = n + 1
    · subst hme
      simp [lastIndexOfAux, hm]
    · have h1 : occursAt s sub (n + 1) = false := hk (n + 1) (by omega) (by omega)
      simp only [lastIndexOfAux, h1, Bool.false_eq_true, if_false]
      exact ih (by omega) hm fun k hk1 hk2 => hk k hk1 (by omega)

theorem jsLastIndexOf_append (t sub : JStr) (hsub : sub ≠ []) :
    jsLastIndexOf (t ++ sub) sub = Int.ofNat t.length := by
  unfold jsLastIndexOf
  rw [lastIndexOfAux_eq_some (t ++ sub) sub t.length (t ++ sub).length
    (by simp [List.length_append]) (occursAt_append t sub)
    (fun k h1 _ => occursAt_append_false t sub hsub k h1)]

theorem jsSubstr_lastIndexOf_append (t sub : JStr) (hsub : sub ≠ []) :
    jsSubstrTo (t ++ sub) (jsLastIndexOf (t ++ sub) sub) = t := by
  rw [jsLastIndexOf_append t sub hsub]
  exact List.take_left t sub

/-- When a path has the form `q ++ "/index.html"`, the variant list of
`purgeCache` is the path, `q`, and `q ++ "/"`. -/
theorem purgeFilenameVariants_append (q : JStr) :
    purgeFilenameVariants (q ++ jstr "/index.html") =
      [q ++ jstr "/index.html", q, q ++ jstr "/"] := by
  have hends : jsEndsWith (q ++ jstr "/index.html") (jstr "/index.html") = true :=
    (jsEndsWith_true_iff _ _).mpr ⟨q, rfl⟩
  have hsfx : jstr "/index.html" = jstr "/" ++ jstr "index.html" := by decide
  have h2 : jsSubstrTo (q ++ jstr "/index.html")
      (jsLastIndexOf (q ++ jstr "/index.html") (jstr "/index.html")) = q :=
    jsSubstr_lastIndexOf_append q (jstr "/index.html") (by decide)
  have h3 : jsSubstrTo (q ++ jstr "/index.html")
      (jsLastIndexOf (q ++ jstr "/index.html") (jstr "index.html")) = q ++ jstr "/" := by
    rw [hsfx, ← List.append_assoc]
    exact jsSubstr_lastIndexOf_append (q ++ jstr "/") (jstr "index.html") (by decide)
  unfold purgeFilenameVariants
  rw [if_pos hends, h2, h3]

theorem purgeFilenameVariants_of_not_index (p : JStr)
    (h : jsEndsWith p (jstr "/index.html") = false) : purgeFilenameVariants p = [p] := by
  simp [purgeFilenameVariants, h]

/-- The duplicated variant computation in `heatCache` agrees with the one in
`purgeCache`. -/
theorem heatFilenameVariants_eq (p : JStr) : heatFilenameVariants p = purgeFilenameVariants p :=
  rfl

theorem purgeFilenameVariants_nodup (p : JStr) : (purgeFilenameVariants p).Nodup := by
  cases hb : jsEndsWith p (jstr "/index.html") with
  | false =>
    rw [purgeFilenameVariants_of_not_index p hb]
    exact List.nodup_singleton p
  | true =>
    obtain ⟨q, rfl⟩ := (jsEndsWith_true_iff _ _).mp hb
    rw [purgeFilenameVariants_append]
    have h11 : (jstr "/index.html").length = 11 := by decide
    have h1 : (jstr "/").length = 1 := by decide
    have hne1 : q ++ jstr "/index.html" ≠ q := by
      intro heq
      have hl := congrArg List.length heq
      rw [List.length_append, h11] at hl
      omega
    have hne2 : q ++ jstr "/index.html" ≠ q ++ jstr "/" := by
      intro heq
      have hl := congrArg List.length heq
      rw [List.length_append, List.length_append, h11, h1] at hl
      omega
    have hne3 : q ≠ q ++ jstr "/" := by
      intro heq
      have hl := congrArg List.length heq
      rw [List.length_append, h1] at hl
      omega
    simp [List.nodup_cons, List.mem_cons, List.mem_singleton, hne1, hne2, hne3]

/-! ## Lemmas about the fan-outs and promise states -/

theorem flatMap_map_length {α β γ : Type} (l : List α) (g : List β) (f : α → β → γ) :
    (l.flatMap fun a => g.map fun b => f a b).length = l.length * g.length := by
  induction l with
  | nil => simp
  | cons a l ih =>
    rw [List.flatMap_cons, List.length_append, List.length_map, ih, List.length_cons,
      Nat.succ_mul]
    ring

theorem purgeCacheCalls_length (p : JStr) (r : List JStr) :
    (purgeCacheCalls p r).length = r.length * (purgeFilenameVariants p).length := by
  unfold purgeCacheCalls
  exact flatMap_map_length r (purgeFilenameVariants p) fun d v => CdnCall.mk d v (jstr "PURGE")

theorem heatCacheCalls_length (p : JStr) (r : List JStr) :
    (heatCacheCalls p r).length = r.length * (heatFilenameVariants p).length := by
  unfold heatCacheCalls
  exact flatMap_map_length r (heatFilenameVariants p) fun d v => CdnCall.mk d v (jstr "GET")

theorem purgeCacheCalls_mem (p : JStr) (r : List JStr) (d v : JStr) :
    CdnCall.mk d v (jstr "PURGE") ∈ purgeCacheCalls p r ↔
      d ∈ r ∧ v ∈ purgeFilenameVariants p := by
  unfold purgeCacheCalls
  rw [List.mem_flatMap]
  constructor
  · rintro ⟨d2, hd2, hmem⟩
    rw [List.mem_map] at hmem
    obtain ⟨v2, hv2, heq⟩ := hmem
    injection heq with h1 h2 h3
    subst h1
    subst h2
    exact ⟨hd2, hv2⟩
  · rintro ⟨hd, hv⟩
    exact ⟨d, hd, List.mem_map.mpr ⟨v, hv, rfl⟩⟩

theorem purgeCacheCalls_method (p : JStr) (r : List JStr) (c : CdnCall)
    (hc : c ∈ purgeCacheCalls p r) : c.method = jstr "PURGE" := by
  unfold purgeCacheCalls at hc
  rw [List.mem_flatMap] at hc
  obtain ⟨d2, -, hmem⟩ := hc
  rw [List.mem_map] at hmem
  obtain ⟨v2, -, heq⟩ := hmem
  rw [← heq]

theorem heatCacheCalls_mem (p : JStr) (r : List JStr) (d v : JStr) :
    CdnCall.mk d v (jstr "GET") ∈ heatCacheCalls p r ↔
      d ∈ r ∧ v ∈ heatFilenameVariants p := by
  unfold heatCacheCalls
  rw [List.mem_flatMap]
  constructor
  · rintro ⟨d2, hd2, hmem⟩
    rw [List.mem_map] at hmem
    obtain ⟨v2, hv2, heq⟩ := hmem
    injection heq with h1 h2 h3
    subst h1
    subst h2
    exact ⟨hd2, hv2⟩
  · rintro ⟨hd, hv⟩
    exact ⟨d, hd, List.mem_map.mpr ⟨v, hv, rfl⟩⟩

theorem heatCacheCalls_method (p : JStr) (r : List JStr) (c : CdnCall)
    (hc : c ∈ heatCacheCalls p r) : c.method = jstr "GET" := by
  unfold heatCacheCalls at hc
  rw [List.mem_flatMap] at hc
  obtain ⟨d2, -, hmem⟩ := hc
  rw [List.mem_map] at hmem
  obtain ⟨v2, -, heq⟩ := hmem
  rw [← heq]

theorem purgeCacheCalls_nodup (p : JStr) :
    ∀ r : List JStr, r.Nodup → (purgeCacheCalls p r).Nodup := by
  intro r
  induction r with
  | nil =>
    intro _
    simp [purgeCacheCalls]
  | cons d r ih =>
    intro hr
    rw [List.nodup_cons] at hr
    show ((purgeFilenameVariants p).map (fun v => CdnCall.mk d v (jstr "PURGE")) ++
      purgeCacheCalls p r).Nodup
    rw [List.nodup_append]
    refine ⟨?_, ih hr.2, ?_⟩
    · exact List.Nodup.map (fun v1 v2 h => congrArg CdnCall.path h)
        (purgeFilenameVariants_nodup p)
    · intro c hc1 hc2
      rw [List.mem_map] at hc1
      obtain ⟨v2, hv2, rfl⟩ := hc1
      have hd : d ∈ r := ((purgeCacheCalls_mem p r d v2).mp hc2).1
      exact hr.1 hd

theorem promiseAllState_resolved_iff (l : List PState) :
    promiseAllState l = PState.resolved ↔ ∀ s ∈ l, s = PState.resolved := by
  unfold promiseAllState
  by_cases h1 : l.any (fun s => decide (s = PState.rejected)) = true
  · rw [if_pos h1]
    obtain ⟨s, hs, hbeq⟩ := List.any_eq_true.mp h1
    have hsr : s = PState.rejected := of_decide_eq_true hbeq
    constructor
    · intro h
      cases h
    · intro hall
      have := hall s hs
      rw [hsr] at this
      cases this
  · rw [if_neg h1]
    by_cases h2 : l.all (fun s => decide (s = PState.resolved)) = true
    · rw [if_pos h2]
      constructor
      · intro _ s hs
        exact of_decide_eq_true (List.all_eq_true.mp h2 s hs)
      · intro _
        rfl
    · rw [if_neg h2]
      constructor
      · intro h
        cases h
      · intro hall
        exact absurd (List.all_eq_true.mpr fun s hs => decide_eq_true (hall s hs)) h2

theorem promiseAllState_ne_rejected (l : List PState)
    (h : ∀ s ∈ l, ¬s = PState.rejected) : ¬promiseAllState l = PState.rejected := by
  unfold promiseAllState
  have h1 : l.any (fun s => decide (s = PState.rejected)) = false := by
    rw [List.any_eq_false]
    intro s hs
    simp only [decide_eq_true_eq]
    exact h s hs
  rw [h1]
  by_cases h2 : l.all (fun s => decide (s = PState.resolved)) = true
  · simp [h2]
  · simp [h2]

theorem purgeFromCdnPromise_resolved_iff (o : NetOutcome) :
    purgeFromCdnPromise o = PState.resolved ↔ o.isResponse = true := by
  cases o <;> simp [purgeFromCdnPromise, NetOutcome.isResponse]

theorem purgeFromCdnPromise_ne_rejected (o : NetOutcome) :
    ¬purgeFromCdnPromise o = PState.rejected := by
  cases o <;> simp [purgeFromCdnPromise]

theorem heatUpCdnPromise_resolved_iff (o : NetOutcome) :
    heatUpCdnPromise o = PState.resolved ↔ o.isResponse = true := by
  cases o <;> simp [heatUpCdnPromise, NetOutcome.isResponse]

theorem heatUpCdnPromise_ne_rejected (o : NetOutcome) :
    ¬heatUpCdnPromise o = PState.rejected := by
  cases o <;> simp [heatUpCdnPromise]

theorem purgeCacheState_ne_rejected (p : JStr) (r : List JStr)
    (outcome : CdnCall → NetOutcome) : ¬purgeCacheState p r outcome = PState.rejected := by
  apply promiseAllState_ne_rejected
  intro s hs
  rw [List.mem_map] at hs
  obtain ⟨c, -, rfl⟩ := hs
  exact purgeFromCdnPromise_ne_rejected _

theorem purgeCacheState_resolved_iff (p : JStr) (r : List JStr)
    (outcome : CdnCall → NetOutcome) :
    purgeCacheState p r outcome = PState.resolved ↔
      ∀ c ∈ purgeCacheCalls p r, (outcome c).isResponse = true := by
  unfold purgeCacheState
  rw [promiseAllState_resolved_iff]
  constructor
  · intro h c hc
    exact (purgeFromCdnPromise_resolved_iff _).mp (h _ (List.mem_map_of_mem _ hc))
  · intro h s hs
    rw [List.mem_map] at hs
    obtain ⟨c, hc, rfl⟩ := hs
    exact (purgeFromCdnPromise_resolved_iff _).mpr (h c hc)

theorem registerRequestHostState_resolved_iff (host dd : JStr)
    (ack : RegistryUpsert → PState) :
    registerRequestHostState host dd ack = PState.resolved ↔
      ∀ u ∈ registerRequestHost host dd, ack u = PState.resolved := by
  unfold registerRequestHostState
  rw [promiseAllState_resolved_iff]
  constructor
  · intro h u hu
    exact h _ (List.mem_map_of_mem _ hu)
  · intro h s hs
    rw [List.mem_map] at hs
    obtain ⟨u, hu, rfl⟩ := hs
    exact h u hu

/-! ## Claim theorems -/

theorem countP_empty_path_purge (r : List JStr) :
    (purgeCacheCalls (jstr "/index.html") r).countP
      (fun c => decide (c.path = jstr "")) = r.length := by
  induction r with
  | nil => simp [purgeCacheCalls]
  | cons d r ih =>
    show List.countP _ ((purgeFilenameVariants (jstr "/index.html")).map
      (fun v => CdnCall.mk d v (jstr "PURGE")) ++ purgeCacheCalls (jstr "/index.html") r) = _
    rw [List.countP_append, ih, List.countP_map,
      show purgeFilenameVariants (jstr "/index.html") = [jstr "/index.html", jstr "", jstr "/"]
        from by decide]
    simp [List.countP_cons]
    rw [if_neg (by decide : ¬(jstr "/" = jstr "")),
      if_neg (by decide : ¬(jstr "/index.html" = jstr ""))]
    omega

theorem countP_empty_path_heat (r : List JStr) :
    (heatCacheCalls (jstr "/index.html") r).countP
      (fun c => decide (c.path = jstr "")) = r.length := by
  induction r with
  | nil => simp [heatCacheCalls]
  | cons d r ih =>
    show List.countP _ ((heatFilenameVariants (jstr "/index.html")).map
      (fun v => CdnCall.mk d v (jstr "GET")) ++ heatCacheCalls (jstr "/index.html") r) = _
    rw [List.countP_append, ih, List.countP_map,
      show heatFilenameVariants (jstr "/index.html") = [jstr "/index.html", jstr "", jstr "/"]
        from by decide]
    simp [List.countP_cons]
    rw [if_neg (by decide : ¬(jstr "/" = jstr "")),
      if_neg (by decide : ¬(jstr "/index.html" = jstr ""))]
    omega

/-- Claim C6: for every path `p`, the variant expansion used by both purge
and heat is deterministic and equals, when `p` ends with `/index.html`, the
three distinct strings `p`, `p` without the trailing `/index.html`, and `p`
without the trailing `index.html` (the two differing by the trailing slash,
e.g. `/about/index.html` yields `/about/index.html`, `/about`, `/about/`);
otherwise exactly `p` alone. -/
theorem variantExpansion_spec (p q : JStr) :
    (p = q ++ jstr "/index.html" →
      purgeFilenameVariants p = [p, q, q ++ jstr "/"]
      ∧ p ≠ q ∧ p ≠ q ++ jstr "/" ∧ q ≠ q ++ jstr "/")
    ∧ (jsEndsWith p (jstr "/index.html") = false → purgeFilenameVariants p = [p])
    ∧ purgeFilenameVariants (jstr "/about/index.html") =
        [jstr "/about/index.html", jstr "/about", jstr "/about/"]
    ∧ heatFilenameVariants p = purgeFilenameVariants p := by
  have h11 : (jstr "/index.html").length = 11 := by decide
  have h1 : (jstr "/").length = 1 := by decide
  refine ⟨?_, purgeFilenameVariants_of_not_index p, by decide, heatFilenameVariants_eq p⟩
  rintro rfl
  refine ⟨purgeFilenameVariants_append q, ?_, ?_, ?_⟩
  · intro heq
    have hl := congrArg List.length heq
    rw [List.length_append, h11] at hl
    omega
  · intro heq
    have hl := congrArg List.length heq
    rw [List.length_append, List.length_append, h11, h1] at hl
    omega
  · intro heq
    have hl := congrArg List.length heq
    rw [List.length_append, h1] at hl
    omega

/-- Witness for C6 at the concrete path `/about/index.html`
(`q = "/about"`). -/
theorem variantExpansion_spec_witness :
    purgeFilenameVariants (jstr "/about/index.html") =
      [jstr "/about/index.html", jstr "/about", jstr "/about/"]
    ∧ jstr "/about/index.html" ≠ jstr "/about" :=
  have h := (variantExpansion_spec (jstr "/about/index.html") (jstr "/about")).1 (by decide)
  ⟨h.1, h.2.1⟩

/-- Claim C10: for the root index path `/index.html`, the variant expansion
of both purge and heat yields `/index.html`, the empty string and `/`, so
each fan-out issues per registered domain exactly one CDN request whose
request path is the empty string. -/
theorem rootIndexEmptyPath_spec (r : List JStr) :
    purgeFilenameVariants (jstr "/index.html") = [jstr "/index.html", jstr "", jstr "/"]
    ∧ heatFilenameVariants (jstr "/index.html") = [jstr "/index.html", jstr "", jstr "/"]
    ∧ (∀ d, d ∈ r →
        CdnCall.mk d (jstr "") (jstr "PURGE") ∈ purgeCacheCalls (jstr "/index.html") r)
    ∧ (∀ d, d ∈ r →
        CdnCall.mk d (jstr "") (jstr "GET") ∈ heatCacheCalls (jstr "/index.html") r)
    ∧ (purgeCacheCalls (jstr "/index.html") r).countP
        (fun c => decide (c.path = jstr "")) = r.length
    ∧ (heatCacheCalls (jstr "/index.html") r).countP
        (fun c => decide (c.path = jstr "")) = r.length := by
  refine ⟨by decide, by decide, ?_, ?_, countP_empty_path_purge r, countP_empty_path_heat r⟩
  · intro d hd
    exact (purgeCacheCalls_mem _ r d _).mpr ⟨hd, by decide⟩
  · intro d hd
    exact (heatCacheCalls_mem _ r d _).mpr ⟨hd, by decide⟩

/-- Claim C2 (amended): a single CDN call (`purgeFromCdn` with method
`PURGE`, `heatUpCdn` with method `GET`, both on port 443) resolves — and
never rejects — exactly when a response of any status code is received;
status codes never alter control flow, so non-2xx statuses are swallowed.
When the connection completes with a connection error, however, the promise
never settles (the source installs no error handler), so the call does not
resolve in that case. -/
theorem cdnClient_spec (host path : JStr) (o : NetOutcome) :
    (purgeFromCdnOpts host path).method = jstr "PURGE"
    ∧ (heatUpCdnOpts host path).method = jstr "GET"
    ∧ (purgeFromCdnOpts host path).port = 443
    ∧ (heatUpCdnOpts host path).port = 443
    ∧ (purgeFromCdnOpts host path).hostname = host
    ∧ (purgeFromCdnOpts host path).path = path
    ∧ (purgeFromCdnPromise o = PState.resolved ↔ o.isResponse = true)
    ∧ (heatUpCdnPromise o = PState.resolved ↔ o.isResponse = true)
    ∧ purgeFromCdnPromise o ≠ PState.rejected
    ∧ heatUpCdnPromise o ≠ PState.rejected :=
  ⟨rfl, rfl, rfl, rfl, rfl, rfl, purgeFromCdnPromise_resolved_iff o,
    heatUpCdnPromise_resolved_iff o, purgeFromCdnPromise_ne_rejected o,
    heatUpCdnPromise_ne_rejected o⟩

/-- Claim C2 counterexample: when the underlying connection completes with a
connection error, neither CDN promise resolves — both stay pending forever,
refuting that a single CDN call always resolves to its caller. -/
theorem cdnClient_connError_pending :
    purgeFromCdnPromise NetOutcome.connError = PState.pending
    ∧ heatUpCdnPromise NetOutcome.connError = PState.pending :=
  ⟨rfl, rfl⟩

/-- Claim C3 (amended): for every path and registry snapshot, `purgeCache`
issues exactly `|registry| * |expand(path)|` PURGE calls — exactly one per
(domain, variant) pair — and never rejects; it completes exactly when every
individual call has received a response, so a call whose connection errors
leaves the operation pending rather than failing it. -/
theorem purgeCache_spec (p : JStr) (r : List JStr) (outcome : CdnCall → NetOutcome)
    (hr : r.Nodup) :
    (purgeCacheCalls p r).length = r.length * (purgeFilenameVariants p).length
    ∧ (purgeCacheCalls p r).Nodup
    ∧ (∀ d v, CdnCall.mk d v (jstr "PURGE") ∈ purgeCacheCalls p r ↔
        d ∈ r ∧ v ∈ purgeFilenameVariants p)
    ∧ (∀ c ∈ purgeCacheCalls p r, c.method = jstr "PURGE")
    ∧ purgeCacheState p r outcome ≠ PState.rejected
    ∧ (purgeCacheState p r outcome = PState.resolved ↔
        ∀ c ∈ purgeCacheCalls p r, (outcome c).isResponse = true) :=
  ⟨purgeCacheCalls_length p r, purgeCacheCalls_nodup p r hr,
    fun d v => purgeCacheCalls_mem p r d v, purgeCacheCalls_method p r,
    purgeCacheState_ne_rejected p r outcome, purgeCacheState_resolved_iff p r outcome⟩

/-- Witness for C3: two registered domains and the path `/about/index.html`
give `2 * 3` PURGE calls. -/
theorem purgeCache_spec_witness :
    (purgeCacheCalls (jstr "/about/index.html") [jstr "a.com", jstr "b.com"]).length
      = 2 * (purgeFilenameVariants (jstr "/about/index.html")).length :=
  (purgeCache_spec (jstr "/about/index.html") [jstr "a.com", jstr "b.com"]
    (fun _ => NetOutcome.connError) (by decide)).1

/-- Claim C3 counterexample: with one registered domain and one variant,
when the single PURGE call ends in a connection error, `purgeCache` does not
complete — its `Promise.all` stays pending — refuting that the purge
operation completes regardless of the outcome of individual calls. -/
theorem purgeCache_connError_pending :
    purgeCacheState (jstr "/x") [jstr "a.com"] (fun _ => NetOutcome.connError)
      = PState.pending := by
  decide

/-- Claim C4: `heatCache(path, delay)` — with `delay` defaulting to
10000 ms — issues zero network calls before the timer wait, and after it
performs the expand → registry-snapshot → fan-out, issuing exactly
`|registry| * |expand(path)|` GET calls. -/
theorem heatCache_spec (p : JStr) (r : List JStr) (delay : Nat) :
    eventsBeforeSleep (heatCacheTrace p r delay) = []
    ∧ (heatCacheTrace p r delay).head? = some (HeatEvent.sleep delay)
    ∧ eventsAfterSleep (heatCacheTrace p r delay) = (heatCacheCalls p r).map HeatEvent.call
    ∧ (heatCacheCalls p r).length = r.length * (heatFilenameVariants p).length
    ∧ (∀ c ∈ heatCacheCalls p r, c.method = jstr "GET")
    ∧ heatCacheTrace p r = heatCacheTrace p r 10000 :=
  ⟨rfl, rfl, rfl, heatCacheCalls_length p r, heatCacheCalls_method p r, rfl⟩

/-- Claim C5: for every content-write event, if the before-document existed
and had a (truthy) `path`, the reaction purges `/sitemap.xml` and purges
`path[0]`; if the after-document exists and has a `path`, it additionally
heats its `path[0]` (with the default 10000 ms delay) whether or not any
purge occurred; a missing `path` on either side yields no purge (resp. no
heat) and is not an error; and only index 0 of a `path` list is ever
used. -/
theorem onDocWrite_spec (b a : DocSnap) :
    (∀ bp bl, b.docExists = true → b.path = some (bp :: bl) →
      DispatchOp.purgeOp (some (jstr "/sitemap.xml")) ∈ tanam_onDocWriteUpdateCache b a
      ∧ DispatchOp.purgeOp (some bp) ∈ tanam_onDocWriteUpdateCache b a)
    ∧ (∀ ap al, a.docExists = true → a.path = some (ap :: al) →
      DispatchOp.heatOp (some ap) 10000 ∈ tanam_onDocWriteUpdateCache b a)
    ∧ ((b.docExists = false ∨ b.path = none) →
      ∀ q, DispatchOp.purgeOp q ∉ tanam_onDocWriteUpdateCache b a)
    ∧ ((a.docExists = false ∨ a.path = none) →
      ∀ q d, DispatchOp.heatOp q d ∉ tanam_onDocWriteUpdateCache b a)
    ∧ (∀ e x t1 t2,
      tanam_onDocWriteUpdateCache ⟨e, some (x :: t1)⟩ a
        = tanam_onDocWriteUpdateCache ⟨e, some (x :: t2)⟩ a)
    ∧ (∀ e x t1 t2,
      tanam_onDocWriteUpdateCache b ⟨e, some (x :: t1)⟩
        = tanam_onDocWriteUpdateCache b ⟨e, some (x :: t2)⟩) := by
  refine ⟨?_, ?_, ?_, ?_, ?_, ?_⟩
  · intro bp bl hbe hbp
    constructor <;> simp [tanam_onDocWriteUpdateCache, hbe, hbp]
  · intro ap al hae hap
    simp [tanam_onDocWriteUpdateCache, hae, hap]
  · intro hb q hq
    rcases hb with h | h <;>
      by_cases ha : a.docExists && a.path.isSome = true <;>
        simp [tanam_onDocWriteUpdateCache, h, ha] at hq
  · intro ha q d hq
    rcases ha with h | h <;>
      by_cases hb : b.docExists && b.path.isSome = true <;>
        simp [tanam_onDocWriteUpdateCache, h, hb] at hq
  · intro e x t1 t2
    cases e <;> simp [tanam_onDocWriteUpdateCache]
  · intro e x t1 t2
    cases e <;> simp [tanam_onDocWriteUpdateCache]

/-- Claim C8: `registerRequestHost(host)` upserts an entry for `host`, and
exactly when `host` ends with `.cloudfunctions.net` it additionally upserts
the deployment's canonical default domain under the default domain's own
hash key; its `Promise.all` resolves exactly once every issued upsert has
been acknowledged. -/
theorem registerRequestHost_spec (host dd : JStr) (ack : RegistryUpsert → PState) :
    registerUpsertFor host ∈ registerRequestHost host dd
    ∧ (jsEndsWith host (jstr ".cloudfunctions.net") = true →
      registerRequestHost host dd = [registerUpsertFor host, registerUpsertFor dd])
    ∧ (jsEndsWith host (jstr ".cloudfunctions.net") = false →
      registerRequestHost host dd = [registerUpsertFor host])
    ∧ (registerUpsertFor dd).refPath
        = hostRegistry ++ jstr "/" ++ jsToLowerCase (sha256Hex dd)
    ∧ (registerUpsertFor dd).data.domain = dd
    ∧ (registerRequestHostState host dd ack = PState.resolved ↔
      ∀ u ∈ registerRequestHost host dd, ack u = PState.resolved) := by
  refine ⟨?_, ?_, ?_, rfl, rfl, registerRequestHostState_resolved_iff host dd ack⟩
  · simp [registerRequestHost]
  · intro h
    simp [registerRequestHost, h]
  · intro h
    simp [registerRequestHost, h]

theorem jsIncludes_of_occursAt (s sub : JStr) (i : Nat) (hi : i ≤ s.length)
    (h : occursAt s sub i = true) : jsIncludes s sub = true := by
  unfold jsIncludes
  rw [List.any_eq_true]
  exact ⟨i, List.mem_range.mpr (by omega), h⟩

/-- Claim C9: `getCacheHeader()` renders the shallow merge of the runtime
`cache` configuration over the defaults `max_age = 600`,
`s_max_age = 31536000`: with no overrides it returns exactly
`public, max-age=600, s-maxage=31536000`, and with the override
`max_age = 30` (whatever the `s_max_age` override) it returns a string
containing `max-age=30`. -/
theorem getCacheHeader_spec (sOv : Option Nat) :
    getCacheHeader none = jstr "public, max-age=600, s-maxage=31536000"
    ∧ (∀ ov : RuntimeCacheConfig,
      getCacheHeader (some ov) =
        jstr "public, max-age=" ++ (Nat.repr (ov.max_age.getD 600)).data ++
          jstr ", s-maxage=" ++ (Nat.repr (ov.s_max_age.getD 31536000)).data)
    ∧ jsIncludes (getCacheHeader (some ⟨some 30, sOv⟩)) (jstr "max-age=30") = true := by
  have hA : jstr "public, max-age=" ++ (Nat.repr 30).data ++ jstr ", s-maxage="
      = jstr "public, max-age=30, s-maxage=" := by decide
  have hform : getCacheHeader (some ⟨some 30, sOv⟩)
      = jstr "public, max-age=30, s-maxage=" ++ (Nat.repr (sOv.getD 31536000)).data := by
    show jstr "public, max-age=" ++ (Nat.repr 30).data ++ jstr ", s-maxage="
      ++ (Nat.repr (sOv.getD 31536000)).data = _
    rw [hA]
  refine ⟨by decide, fun ov => rfl, ?_⟩
  rw [hform]
  apply jsIncludes_of_occursAt _ _ 8
  · rw [List.length_append,
      show (jstr "public, max-age=30, s-maxage=").length = 29 from by decide]
    omega
  · unfold occursAt
    rw [decide_eq_true_eq,
      List.drop_append_of_le_length
        (by decide : 8 ≤ (jstr "public, max-age=30, s-maxage=").length),
      List.take_append_of_le_length
        (by decide : (jstr "max-age=30").length ≤
          ((jstr "public, max-age=30, s-maxage=").drop 8).length)]
    decide

set_option maxRecDepth 100000 in
/-- Claim C7 counterexample: two hosts differing only in letter case
(`A.com` and `a.com`) are stored under different registry keys, because the
source lowercases the hex digest, not the hostname, before hashing —
refuting that the key is the digest of the lowercased hostname. -/
theorem registryKey_case_sensitive :
    decide ((registerUpsertFor (jstr "A.com")).refPath
      = (registerUpsertFor (jstr "a.com")).refPath) = false := by
  decide

set_option maxRecDepth 100000 in
/-- Claim C7 (amended): a registered host's entry `(domain, lastSeen)` is
stored at `cacheDomains/(k)` where `k` is the lowercased hexadecimal
SHA-256 digest of the hostname as received (the digest is lowercased, not
the hostname), so two hosts differing only in letter case map to different
registry keys. -/
theorem registryKey_spec (host dd : JStr) :
    (registerRequestHost host dd).head? = some (registerUpsertFor host)
    ∧ (registerUpsertFor host).refPath
        = jstr "cacheDomains/" ++ jsToLowerCase (sha256Hex host)
    ∧ (registerUpsertFor host).data.domain = host
    ∧ (registerUpsertFor host).data.lastSeen = TimeValue.serverTimestamp
    ∧ decide ((registerUpsertFor (jstr "A.com")).refPath
        = (registerUpsertFor (jstr "a.com")).refPath) = false := by
  refine ⟨rfl, ?_, rfl, rfl, by decide⟩
  show jstr "cacheDomains" ++ jstr "/" ++ jsToLowerCase (sha256Hex host) = _
  rw [show jstr "cacheDomains" ++ jstr "/" = jstr "cacheDomains/" from by decide]

/-- Public-path mapping used in the C1 theme-change scenario (an instance
of the external `content.getPublicPathToStorageFile`). -/
def c1PublicPath : JStr → JStr := fun n => jstr "/theme/" ++ n

/-- The CDN calls of the C1 theme-change scenario: previous theme
`classic`, `site.getDomains()` returning the registered domains `a.com`
and `b.com`, one previous-theme asset `t1.css`, two documents with primary
paths `/p1` and `/p2`, registry snapshot `a.com`, `b.com`. -/
def c1ThemeChangeCalls : List CdnCall :=
  tanam_onThemeChangeUpdateCache (some (jstr "classic")) c1PublicPath
    [jstr "a.com", jstr "b.com"] [jstr "t1.css"] [[jstr "/p1"], [jstr "/p2"]]
    [jstr "a.com", jstr "b.com"]

/-- Claim C1: evaluation of the theme-change reaction at the claim's
scenario.  The code issues 12 PURGE calls — every (domain, path) pair
exactly twice, not once — because the outer loop over `site.getDomains()`
multiplies `purgeCache`, which itself already fans out over every
registered domain (its loop variable is unused except for logging).  No
GET call is issued, and a first-time theme assignment is a no-op. -/
theorem themeChange_scenario_eval :
    c1ThemeChangeCalls.length = 12
    ∧ c1ThemeChangeCalls.countP (fun c =>
        decide (c = CdnCall.mk (jstr "a.com") (jstr "/theme/t1.css") (jstr "PURGE"))) = 2
    ∧ c1ThemeChangeCalls.countP (fun c =>
        decide (c = CdnCall.mk (jstr "b.com") (jstr "/theme/t1.css") (jstr "PURGE"))) = 2
    ∧ c1ThemeChangeCalls.countP (fun c =>
        decide (c = CdnCall.mk (jstr "a.com") (jstr "/p1") (jstr "PURGE"))) = 2
    ∧ c1ThemeChangeCalls.countP (fun c =>
        decide (c = CdnCall.mk (jstr "b.com") (jstr "/p1") (jstr "PURGE"))) = 2
    ∧ c1ThemeChangeCalls.countP (fun c =>
        decide (c = CdnCall.mk (jstr "a.com") (jstr "/p2") (jstr "PURGE"))) = 2
    ∧ c1ThemeChangeCalls.countP (fun c =>
        decide (c = CdnCall.mk (jstr "b.com") (jstr "/p2") (jstr "PURGE"))) = 2
    ∧ c1ThemeChangeCalls.countP (fun c => decide (c.method = jstr "GET")) = 0
    ∧ tanam_onThemeChangeUpdateCache none c1PublicPath [jstr "a.com", jstr "b.com"]
        [jstr "t1.css"] [[jstr "/p1"], [jstr "/p2"]] [jstr "a.com", jstr "b.com"] = [] := by
  decide
